import Mathlib

/-!
# Verification of the R2R chatbot session/streaming core

Shallow embedding of the session lifecycle and streaming-delivery logic of
the repository (files `chatbot_service.py` and `main.py`), together with
proofs of the specification's testable properties.

Conventions of the embedding:
* Timestamps are integers (seconds); `datetime.now() - last_activity` becomes
  integer subtraction and `timedelta(minutes=30)` becomes `30 * 60` seconds.
* The in-memory dict `active_sessions` becomes an association list
  `Store = List (String × ChatSession)`.
* `asyncio`/network effects are threaded as explicit input parameters: the
  outcome of a backend call is an input to the function modelling the handler.
-/

/-! ## Python `str.split()` (split on runs of whitespace, dropping empties) -/

/-- The ASCII whitespace characters recognized by Python's `str.split()`. -/
def isPySpace (c : Char) : Bool :=
  c = ' ' || c = '\t' || c = '\n' || c = '\r' || c = '\x0b' || c = '\x0c'

/-- Accumulator-style worker for `pySplit`: `acc` holds the current word,
reversed. -/
def pySplitAux : List Char → List Char → List String
  | [], acc => if acc.isEmpty then [] else [String.mk acc.reverse]
  | c :: cs, acc =>
    if isPySpace c then
      if acc.isEmpty then pySplitAux cs []
      else String.mk acc.reverse :: pySplitAux cs []
    else pySplitAux cs (c :: acc)

/-- Python `response.split()`: split on whitespace runs, no empty tokens. -/
def pySplit (s : String) : List String := pySplitAux s.data []

/-! ## Streaming chunks (`generate_response` in `chatbot_service.py`) -/

inductive ChunkType
  | content
  | metadata
  | error
deriving DecidableEq, Repr

/-- The `data` field of the metadata chunk:
`{conversation_id, document_id, session_id}`. -/
structure MetaPayload where
  conversation_id : Option String
  document_id : Option String
  session_id : String
deriving DecidableEq, Repr

inductive ChunkData
  | str (s : String)
  | meta (m : MetaPayload)
deriving DecidableEq, Repr

/-- One SSE chunk `{type, data, is_final}` emitted by `generate_response`. -/
structure Chunk where
  ctype : ChunkType
  cdata : ChunkData
  is_final : Bool
deriving DecidableEq, Repr

/-- Outcome of `await session.chatbot.send_message_to_r2r(message)` as seen by
`generate_response`: either the returned `Optional[str]`, or an exception. -/
inductive BackendOutcome
  | ok (response : Option String)
  | exn (msg : String)
deriving DecidableEq, Repr

/-- The per-word content chunks: Python's
`for i, word in enumerate(words): chunk = {type: content, data: word + " ",
is_final: i == len(words) - 1}`. -/
def contentChunks (words : List String) : List Chunk :=
  words.enum.map fun p =>
    ⟨ChunkType.content, ChunkData.str (p.2 ++ " "), p.1 == words.length - 1⟩

/-- `generate_response` from `send_message` in `chatbot_service.py`: given the
backend outcome and the session's identifiers, the full ordered list of
emitted chunks.  Python's `if response:` is false exactly for `None` and the
empty string. -/
def generate_response (outcome : BackendOutcome)
    (conversation_id document_id : Option String) (session_id : String) :
    List Chunk :=
  match outcome with
  | BackendOutcome.exn e =>
      [⟨ChunkType.error, ChunkData.str ("An error occurred: " ++ e), true⟩]
  | BackendOutcome.ok none =>
      [⟨ChunkType.error,
        ChunkData.str "Sorry, I couldn\x27t process your message. Please try again.",
        true⟩]
  | BackendOutcome.ok (some response) =>
      if response = "" then
        [⟨ChunkType.error,
          ChunkData.str "Sorry, I couldn\x27t process your message. Please try again.",
          true⟩]
      else
        contentChunks (pySplit response) ++
          [⟨ChunkType.metadata,
            ChunkData.meta ⟨conversation_id, document_id, session_id⟩, true⟩]

/-- The string payload of a chunk (the `data` field when it is a string). -/
def chunkText : Chunk → String
  | ⟨_, ChunkData.str s, _⟩ => s
  | _ => ""

/-- The payloads of the content chunks of a sequence, in order. -/
def contentData (cs : List Chunk) : List String :=
  (cs.filter fun c => c.ctype == ChunkType.content).map chunkText

/-- Number of chunks tagged `is_final: true`. -/
def countFinal (cs : List Chunk) : Nat :=
  (cs.filter fun c => c.is_final).length

/-! ## Sessions and the session store (`chatbot_service.py`) -/

/-- `SESSION_TIMEOUT = 30` (minutes). -/
def SESSION_TIMEOUT : Int := 30

/-- `ChatSession` from `chatbot_service.py`; timestamps in seconds. The
embedded chatbot state is reduced to the identifiers the handlers read. -/
structure ChatSession where
  session_id : String
  user_id : Int
  created_at : Int
  last_activity : Int
deriving DecidableEq, Repr

/-- `is_expired`: `datetime.now() - self.last_activity >
timedelta(minutes=SESSION_TIMEOUT)` — note the strict inequality. -/
def ChatSession.is_expired (s : ChatSession) (now : Int) : Bool :=
  now - s.last_activity > SESSION_TIMEOUT * 60

/-- `update_activity`: `self.last_activity = datetime.now()`. -/
def ChatSession.update_activity (s : ChatSession) (now : Int) : ChatSession :=
  { s with last_activity := now }

/-- The `active_sessions` dict, as an association list with unique keys. -/
def Store := List (String × ChatSession)

/-- `active_sessions.get(session_id)`. -/
def Store.get (st : Store) (id : String) : Option ChatSession :=
  (List.find? (fun p => p.1 == id) st).map Prod.snd

/-- In-place mutation of the session stored under `id` (Python objects in the
dict are mutated through the reference returned by `.get`). -/
def Store.set (st : Store) (id : String) (s : ChatSession) : Store :=
  List.map (fun p => if p.1 == id then (p.1, s) else p) st

/-- `del active_sessions[session_id]`. -/
def Store.erase (st : Store) (id : String) : Store :=
  List.filter (fun p => !(p.1 == id)) st

/-- `cleanup_session` from `chatbot_service.py`.  `createTaskFails` models
whether `asyncio.create_task(session.chatbot.delete_document())` raises (the
`except` swallows it).  Returns the new store and whether a backend delete
was initiated.  The `del` runs whenever the session is present, regardless of
the delete outcome. -/
def cleanup_session (st : Store) (id : String) (createTaskFails : Bool) :
    Store × Bool :=
  match Store.get st id with
  | some _ => (Store.erase st id, !createTaskFails)
  | none => (st, false)

/-- `get_session` from `chatbot_service.py`: fetch, check expiry, refresh
activity on the live path, evict through `cleanup_session` on the expired
path.  Returns the session handed to the caller and the updated store. -/
def get_session (st : Store) (id : String) (now : Int)
    (createTaskFails : Bool) : Option ChatSession × Store :=
  match Store.get st id with
  | some s =>
      if !s.is_expired now then
        let s' := s.update_activity now
        (some s', Store.set st id s')
      else
        (none, (cleanup_session st id createTaskFails).1)
  | none => (none, st)

inductive CloseResult
  | success
  | sessionNotFound
deriving DecidableEq, Repr

/-- `close_chat` endpoint: resolve via `get_session`; 404 when absent,
otherwise tear down via `cleanup_session` and report success. -/
def close_chat (st : Store) (id : String) (now : Int)
    (createTaskFails : Bool) : CloseResult × Store :=
  let r := get_session st id now createTaskFails
  match r.1 with
  | none => (CloseResult.sessionNotFound, r.2)
  | some _ => (CloseResult.success, (cleanup_session r.2 id createTaskFails).1)

/-- One cycle of `cleanup_expired_sessions` (the Reaper): collect the expired
ids, then run `cleanup_session` on each. -/
def cleanup_cycle (st : Store) (now : Int) : Store :=
  let expired := (List.filter (fun p => p.2.is_expired now) st).map Prod.fst
  expired.foldl (fun acc id => (cleanup_session acc id false).1) st

/-! ## Upload recovery (`upload_document_to_r2r` in `main.py`) -/

/-- Character class of the regex `[a-f0-9-]`. -/
def isHexOrDash (c : Char) : Bool :=
  ('a' ≤ c && c ≤ 'f') || ('0' ≤ c && c ≤ '9') || c = '-'

def docLit : List Char := "Document ".data

def existsLit : List Char := " already exists".data

/-- Try the regex `Document ([a-f0-9-]+) already exists` anchored at the head
of `cs`.  Because the literal following the group starts with `' '`, which is
outside `[a-f0-9-]`, the greedy `+` with backtracking succeeds only on the
maximal run of class characters, so taking the maximal run and then checking
the literal is exact. -/
def matchAt (cs : List Char) : Option String :=
  if docLit.isPrefixOf cs then
    let rest := cs.drop docLit.length
    let run := rest.takeWhile isHexOrDash
    if run.isEmpty then none
    else if existsLit.isPrefixOf (rest.drop run.length) then
      some (String.mk run)
    else none
  else none

/-- `re.search(r'Document ([a-f0-9-]+) already exists', error_str)`: leftmost
match, returning group 1. -/
def searchDoc : List Char → Option String
  | [] => none
  | c :: cs =>
    match matchAt (c :: cs) with
    | some g => some g
    | none => searchDoc cs

/-- Python's substring test `sub in s` on character lists. -/
def hasSubstr (sub : List Char) : List Char → Bool
  | [] => sub.isEmpty
  | c :: cs => sub.isPrefixOf (c :: cs) || hasSubstr sub cs

/-- The `except` branch of `upload_document_to_r2r`: Python's
`"already exists" in str(e)` guard, the inner `"Document" in error_str and
"already exists" in error_str` guard, then the regex search.  Returns the
recovered document id, or `none` when the error is propagated as failure. -/
def upload_error_recovery (error_str : String) : Option String :=
  if hasSubstr "already exists".data error_str.data then
    if hasSubstr "Document".data error_str.data &&
        hasSubstr "already exists".data error_str.data then
      searchDoc error_str.data
    else none
  else none

/-- Environment of one `upload_document_to_r2r` call: which branch the
outside world forces. -/
inductive UploadEnv
  | clientNone
  | fileMissing
  | uploaded (doc_id : String)
  | raised (msg : String)
deriving DecidableEq, Repr

/-- `upload_document_to_r2r` from `main.py` as a function of its
environment: `None` when the client is absent or the file is missing, the
backend's id on success, and the recovery path on exception. -/
def upload_document_to_r2r : UploadEnv → Option String
  | UploadEnv.clientNone => none
  | UploadEnv.fileMissing => none
  | UploadEnv.uploaded d => some d
  | UploadEnv.raised e => upload_error_recovery e

/-! ## Store lemmas -/

/-- After `erase`, the id is absent. -/
theorem Store.get_erase (st : Store) (id : String) :
    Store.get (Store.erase st id) id = none := by
  unfold Store.get Store.erase
  rw [List.find?_eq_none.2]
  · rfl
  · intro p hp
    have := (List.mem_filter.1 hp).2
    simp only [Bool.not_eq_true'] at this
    simp [this]

/-- `set` overwrites the value found under a present id. -/
theorem Store.get_set (st : Store) (id : String) (s s' : ChatSession)
    (h : Store.get st id = some s) :
    Store.get (Store.set st id s') id = some s' := by
  induction st with
  | nil => simp [Store.get, List.find?] at h
  | cons p st ih =>
    by_cases hid : p.1 = id
    · simp [Store.get, Store.set, List.find?, hid]
    · have hb : (p.1 == id) = false := by simpa using hid
      unfold Store.get at h ih ⊢
      unfold Store.set at ih ⊢
      simp only [List.map_cons, hb, Bool.false_eq_true, if_false]
      rw [List.find?_cons_of_neg _ (by simp [hb])] at h ⊢
      exact ih h

/-! ## Session claims (C4, C5, C7, C8, C9) -/

/-- C4 (counterexample): the claim says a session is expired as soon as
`now - last_activity_at >= TIMEOUT`, but at exactly 30 minutes (1800 s)
`is_expired` is still false, because the code compares with strict `>`. -/
theorem is_expired_boundary_cex :
    (1800 : Int) - (⟨"s", 0, 0, 0⟩ : ChatSession).last_activity ≥
        SESSION_TIMEOUT * 60 ∧
    (⟨"s", 0, 0, 0⟩ : ChatSession).is_expired 1800 = false := by
  exact ⟨by decide, by decide⟩

/-- C4 (amended): a session is expired iff strictly more than TIMEOUT
(30 minutes) has elapsed since its last activity; at exactly TIMEOUT it is
still active. -/
theorem is_expired_iff_strict (s : ChatSession) (now : Int) :
    (s.is_expired now = true ↔ now - s.last_activity > SESSION_TIMEOUT * 60) ∧
    s.is_expired (s.last_activity + SESSION_TIMEOUT * 60) = false := by
  refine ⟨by simp [ChatSession.is_expired], ?_⟩
  simp [ChatSession.is_expired]

/-- C5: `get_session` (a) refreshes `last_activity` and returns the session
when it is live, (b) evicts an expired session through the same
`cleanup_session` path before returning `none`, and (c) returns `none` with
the store unchanged when the id is absent. -/
theorem get_session_cases (st : Store) (id : String) (now : Int) (b : Bool) :
    (∀ s, Store.get st id = some s → s.is_expired now = false →
        get_session st id now b =
          (some (s.update_activity now),
            Store.set st id (s.update_activity now))) ∧
    (∀ s, Store.get st id = some s → s.is_expired now = true →
        get_session st id now b = (none, (cleanup_session st id b).1) ∧
          Store.get (get_session st id now b).2 id = none) ∧
    (Store.get st id = none → get_session st id now b = (none, st)) := by
  refine ⟨?_, ?_, ?_⟩
  · intro s hs hl
    simp [get_session, hs, hl]
  · intro s hs he
    have h1 : get_session st id now b = (none, (cleanup_session st id b).1) := by
      simp [get_session, hs, he]
    refine ⟨h1, ?_⟩
    rw [h1]
    simp [cleanup_session, hs, Store.get_erase]
  · intro h
    simp [get_session, h]

theorem get_session_cases_witness :
    (get_session [("a", ⟨"a", 1, 0, 0⟩)] "a" 10 false =
      (some (ChatSession.update_activity ⟨"a", 1, 0, 0⟩ 10),
        Store.set [("a", ⟨"a", 1, 0, 0⟩)] "a"
          (ChatSession.update_activity ⟨"a", 1, 0, 0⟩ 10))) ∧
    (get_session [("a", ⟨"a", 1, 0, 0⟩)] "a" 100000 false =
      (none, (cleanup_session [("a", ⟨"a", 1, 0, 0⟩)] "a" false).1)) ∧
    (get_session [("a", ⟨"a", 1, 0, 0⟩)] "b" 10 false =
      (none, [("a", ⟨"a", 1, 0, 0⟩)])) :=
  ⟨(get_session_cases [("a", ⟨"a", 1, 0, 0⟩)] "a" 10 false).1
      ⟨"a", 1, 0, 0⟩ (by decide) (by decide),
   ((get_session_cases [("a", ⟨"a", 1, 0, 0⟩)] "a" 100000 false).2.1
      ⟨"a", 1, 0, 0⟩ (by decide) (by decide)).1,
   (get_session_cases [("a", ⟨"a", 1, 0, 0⟩)] "b" 10 false).2.2 (by decide)⟩

/-- C7: closing an active session twice yields success the first time and
SessionNotFound the second time. -/
theorem close_chat_twice (st : Store) (id : String) (now1 now2 : Int)
    (b1 b2 : Bool) (s : ChatSession)
    (h : Store.get st id = some s) (hlive : s.is_expired now1 = false) :
    (close_chat st id now1 b1).1 = CloseResult.success ∧
    (close_chat (close_chat st id now1 b1).2 id now2 b2).1 =
      CloseResult.sessionNotFound := by
  have hget : get_session st id now1 b1 =
      (some (s.update_activity now1),
        Store.set st id (s.update_activity now1)) := by
    simp [get_session, h, hlive]
  have hset : Store.get (Store.set st id (s.update_activity now1)) id =
      some (s.update_activity now1) := Store.get_set st id s _ h
  have h1 : close_chat st id now1 b1 =
      (CloseResult.success,
        Store.erase (Store.set st id (s.update_activity now1)) id) := by
    simp [close_chat, hget, cleanup_session, hset]
  refine ⟨by rw [h1], ?_⟩
  rw [h1]
  simp [close_chat, get_session, Store.get_erase]

theorem close_chat_twice_witness :
    (close_chat [("a", ⟨"a", 1, 0, 0⟩)] "a" 10 false).1 =
      CloseResult.success ∧
    (close_chat (close_chat [("a", ⟨"a", 1, 0, 0⟩)] "a" 10 false).2
        "a" 20 false).1 = CloseResult.sessionNotFound :=
  close_chat_twice [("a", ⟨"a", 1, 0, 0⟩)] "a" 10 20 false false
    ⟨"a", 1, 0, 0⟩ (by decide) (by decide)

/-- C8: teardown always removes the id from the store, and the resulting
store is the same whether or not initiating the backend delete fails — the
failure never prevents local removal. -/
theorem cleanup_session_removes (st : Store) (id : String) (b : Bool) :
    Store.get ((cleanup_session st id b).1) id = none ∧
    (cleanup_session st id true).1 = (cleanup_session st id false).1 := by
  constructor
  · cases hg : Store.get st id with
    | none => simp [cleanup_session, hg]
    | some s => simp [cleanup_session, hg, Store.get_erase]
  · cases hg : Store.get st id <;> simp [cleanup_session, hg]

/-- C9: removing an absent id is a no-op: the function returns normally, no
backend delete is initiated (second component `false`), and the store is
unchanged. -/
theorem cleanup_session_absent (st : Store) (id : String) (b : Bool)
    (h : Store.get st id = none) :
    cleanup_session st id b = (st, false) := by
  simp [cleanup_session, h]

theorem cleanup_session_absent_witness :
    cleanup_session [] "x" false = (([] : Store), false) :=
  cleanup_session_absent [] "x" false rfl

/-! ## `pySplit` lemmas -/

/-- Consuming a run of non-whitespace characters just extends the
accumulator. -/
theorem pySplitAux_no_space (w : List Char) (rest acc : List Char)
    (h : ∀ c ∈ w, isPySpace c = false) :
    pySplitAux (w ++ rest) acc = pySplitAux rest (w.reverse ++ acc) := by
  induction w generalizing acc with
  | nil => simp
  | cons c w ih =>
    have hc : isPySpace c = false := h c (by simp)
    simp only [List.cons_append, pySplitAux, hc, Bool.false_eq_true, if_false,
      List.append_eq]
    rw [ih (c :: acc) (fun d hd => h d (by simp [hd]))]
    simp [List.append_assoc]

/-- A whitespace character flushes a non-empty accumulator as one word. -/
theorem pySplitAux_space (c : Char) (rest acc : List Char)
    (hc : isPySpace c = true) (hacc : acc ≠ []) :
    pySplitAux (c :: rest) acc =
      String.mk acc.reverse :: pySplitAux rest [] := by
  have he : acc.isEmpty = false := by
    cases acc with
    | nil => exact absurd rfl hacc
    | cons a l => rfl
  simp [pySplitAux, hc, he]

/-- `String.join` at the level of character lists (generalized fold). -/
theorem foldl_append_data (l : List String) (s : String) :
    (l.foldl (· ++ ·) s).data = s.data ++ (l.map String.data).flatten := by
  induction l generalizing s with
  | nil => simp
  | cons a l ih =>
    simp [List.foldl_cons, ih, List.append_assoc]

/-- `String.join` at the level of character lists. -/
theorem join_data (l : List String) :
    (String.join l).data = (l.map String.data).flatten := by
  have := foldl_append_data l ""
  simpa [String.join] using this

/-- Splitting the join of space-terminated words recovers the words, provided
each word is non-empty and whitespace-free. -/
theorem pySplitAux_join (ws : List String)
    (h : ∀ w ∈ ws, w.data ≠ [] ∧ ∀ c ∈ w.data, isPySpace c = false) :
    pySplitAux ((ws.map (fun x => x.data ++ [' '])).flatten) [] = ws := by
  induction ws with
  | nil => simp [pySplitAux]
  | cons w tl ih =>
    have hw := h w (by simp)
    have hjoin : ((w :: tl).map (fun x => x.data ++ [' '])).flatten
        = w.data ++ (' ' :: ((tl.map (fun x => x.data ++ [' '])).flatten)) := by
      simp
    rw [hjoin, pySplitAux_no_space w.data _ [] hw.2, List.append_nil,
      pySplitAux_space ' ' _ _ (by decide)
        (by simpa [List.reverse_eq_nil_iff] using hw.1)]
    rw [List.reverse_reverse, ih (fun x hx => h x (by simp [hx]))]

/-- Every word produced by `pySplitAux` is non-empty and whitespace-free,
provided the accumulator is whitespace-free. -/
theorem pySplitAux_words (cs : List Char) (acc : List Char)
    (hacc : ∀ c ∈ acc, isPySpace c = false) :
    ∀ w ∈ pySplitAux cs acc,
      w.data ≠ [] ∧ ∀ c ∈ w.data, isPySpace c = false := by
  induction cs generalizing acc with
  | nil =>
    intro w hw
    cases acc with
    | nil => simp [pySplitAux] at hw
    | cons a l =>
      simp [pySplitAux] at hw
      subst hw
      refine ⟨by simp, ?_⟩
      intro c hcmem
      have h' : c ∈ l.reverse ++ [a] := hcmem
      rcases List.mem_append.1 h' with h2 | h2
      · exact hacc c (List.mem_cons_of_mem a (List.mem_reverse.1 h2))
      · have hca : c = a := by simpa using h2
        exact hacc c (by simp [hca])
  | cons c cs ih =>
    intro w hw
    by_cases hc : isPySpace c
    · cases acc with
      | nil =>
        simp only [pySplitAux, hc, if_true, List.isEmpty_nil] at hw
        exact ih [] (by simp) w hw
      | cons a l =>
        rw [pySplitAux_space c cs (a :: l) hc (by simp)] at hw
        rcases List.mem_cons.1 hw with hw | hw
        · subst hw
          refine ⟨by simp, ?_⟩
          intro d hd
          exact hacc d (List.mem_reverse.1 hd)
        · exact ih [] (by simp) w hw
    · have hcf : isPySpace c = false := by simpa using hc
      simp only [pySplitAux, hcf, Bool.false_eq_true, if_false] at hw
      refine ih (c :: acc) ?_ w hw
      intro d hd
      rcases List.mem_cons.1 hd with hd | hd
      · simpa [hd] using hcf
      · exact hacc d hd

/-- All the words of `pySplit s` are non-empty and whitespace-free. -/
theorem pySplit_words (s : String) :
    ∀ w ∈ pySplit s, w.data ≠ [] ∧ ∀ c ∈ w.data, isPySpace c = false :=
  pySplitAux_words s.data [] (by simp)

/-- Re-splitting the join of the split's space-suffixed words recovers the
split: the reconstruction is word-for-word, whitespace-insensitively. -/
theorem pySplit_join (ws : List String)
    (h : ∀ w ∈ ws, w.data ≠ [] ∧ ∀ c ∈ w.data, isPySpace c = false) :
    pySplit (String.join (ws.map (· ++ " "))) = ws := by
  unfold pySplit
  have hdata : (String.join (ws.map (· ++ " "))).data
      = (ws.map (fun x => x.data ++ [' '])).flatten := by
    rw [join_data, List.map_map]
    congr 1
  rw [hdata]
  exact pySplitAux_join ws h

/-- Splitting an all-whitespace string yields no words. -/
theorem pySplit_all_space (s : String)
    (h : ∀ c ∈ s.data, isPySpace c = true) : pySplit s = [] := by
  unfold pySplit
  have key : ∀ cs : List Char, (∀ c ∈ cs, isPySpace c = true) →
      pySplitAux cs [] = [] := by
    intro cs
    induction cs with
    | nil => intro _; simp [pySplitAux]
    | cons c cs ih =>
      intro hcs
      simp only [pySplitAux, hcs c (by simp), if_true, List.isEmpty_nil]
      exact ih (fun d hd => hcs d (by simp [hd]))
  exact key s.data h

/-! ## Content-chunk lemmas -/

/-- Every chunk produced by `contentChunks` has type `content`. -/
theorem mem_contentChunks_ctype (ws : List String) (c : Chunk)
    (hc : c ∈ contentChunks ws) : c.ctype = ChunkType.content := by
  unfold contentChunks at hc
  obtain ⟨p, _, rfl⟩ := List.mem_map.1 hc
  rfl

/-- The payloads of the content chunks, when the sequence is the word chunks
followed by one metadata chunk, are exactly the space-suffixed words. -/
theorem contentData_contentChunks (ws : List String) (m : Chunk)
    (hm : m.ctype = ChunkType.metadata) :
    contentData (contentChunks ws ++ [m]) = ws.map (· ++ " ") := by
  unfold contentData
  rw [List.filter_append]
  have h2 : List.filter (fun c => c.ctype == ChunkType.content) [m] = [] := by
    have hb : (m.ctype == ChunkType.content) = false := by
      rw [hm]
      rfl
    simp [List.filter, hb]
  have h1 : List.filter (fun c => c.ctype == ChunkType.content)
      (contentChunks ws) = contentChunks ws :=
    List.filter_eq_self.2 (fun c hc => by
      rw [mem_contentChunks_ctype ws c hc]
      rfl)
  rw [h1, h2, List.append_nil]
  unfold contentChunks
  rw [List.map_map]
  have hfun : (chunkText ∘ fun p : Nat × String =>
      (⟨ChunkType.content, ChunkData.str (p.2 ++ " "),
        p.1 == ws.length - 1⟩ : Chunk)) =
      (fun w => w ++ " ") ∘ Prod.snd := rfl
  rw [hfun, ← List.map_map, List.enum_map_snd]

/-- Filtering for metadata chunks among the word chunks leaves nothing. -/
theorem contentChunks_no_meta (ws : List String) :
    List.filter (fun c => c.ctype == ChunkType.metadata)
      (contentChunks ws) = [] :=
  List.filter_eq_nil_iff.2 (fun c hc => by
    rw [mem_contentChunks_ctype ws c hc]
    simp)

/-- `countFinal` distributes over append. -/
theorem countFinal_append (a b : List Chunk) :
    countFinal (a ++ b) = countFinal a + countFinal b := by
  simp [countFinal, List.filter_append]

/-- Exactly the last word chunk is tagged final: zero finals for no words,
one final otherwise. -/
theorem countFinal_contentChunks (ws : List String) :
    countFinal (contentChunks ws) = if ws = [] then 0 else 1 := by
  unfold countFinal contentChunks
  rw [← List.countP_eq_length_filter, List.countP_map]
  have heq : ((fun c : Chunk => c.is_final) ∘ fun p : Nat × String =>
      (⟨ChunkType.content, ChunkData.str (p.2 ++ " "),
        p.1 == ws.length - 1⟩ : Chunk)) =
      fun p : Nat × String => p.1 == ws.length - 1 := rfl
  rw [heq]
  by_cases hws : ws = []
  · subst hws
    simp
  · rw [if_neg hws]
    rw [List.enum_eq_zip_range]
    have hfst : ((List.range ws.length).zip ws).map Prod.fst
        = List.range ws.length :=
      List.map_fst_zip _ _ (by simp)
    have hstep : ((List.range ws.length).zip ws).countP
          (fun p => p.1 == ws.length - 1)
        = (((List.range ws.length).zip ws).map Prod.fst).countP
            (fun i => i == ws.length - 1) := by
      rw [List.countP_map]
      rfl
    rw [hstep, hfst]
    have hmem : ws.length - 1 ∈ List.range ws.length := by
      have : 0 < ws.length := List.length_pos.2 hws
      simp
      omega
    exact List.count_eq_one_of_mem (List.nodup_range ws.length) hmem

/-! ## Streaming claims (C1, C2, C6, C10) -/

/-- C1: for a successful send (non-empty backend reply), the content chunks
carry the reply's words in original order, their concatenation re-splits to
the reply word-for-word (whitespace-insensitively), and the sequence is the
content chunks followed by exactly one terminal metadata chunk. -/
theorem send_success_stream (r : String) (conv doc : Option String)
    (sid : String) (hr : r ≠ "") :
    contentData (generate_response (BackendOutcome.ok (some r)) conv doc sid)
      = (pySplit r).map (· ++ " ") ∧
    pySplit (String.join (contentData
      (generate_response (BackendOutcome.ok (some r)) conv doc sid)))
      = pySplit r ∧
    (∃ pre, generate_response (BackendOutcome.ok (some r)) conv doc sid
        = pre ++ [⟨ChunkType.metadata,
            ChunkData.meta ⟨conv, doc, sid⟩, true⟩] ∧
      ∀ c ∈ pre, c.ctype = ChunkType.content) ∧
    (List.filter (fun c => c.ctype == ChunkType.metadata)
      (generate_response (BackendOutcome.ok (some r)) conv doc sid)).length
      = 1 := by
  have hgen : generate_response (BackendOutcome.ok (some r)) conv doc sid
      = contentChunks (pySplit r) ++
        [⟨ChunkType.metadata, ChunkData.meta ⟨conv, doc, sid⟩, true⟩] := by
    simp [generate_response, hr]
  have hcd : contentData
      (generate_response (BackendOutcome.ok (some r)) conv doc sid)
      = (pySplit r).map (· ++ " ") := by
    rw [hgen]
    exact contentData_contentChunks (pySplit r) _ rfl
  refine ⟨hcd, ?_, ?_, ?_⟩
  · rw [hcd]
    exact pySplit_join (pySplit r) (pySplit_words r)
  · exact ⟨contentChunks (pySplit r), hgen,
      fun c hc => mem_contentChunks_ctype (pySplit r) c hc⟩
  · rw [hgen, List.filter_append, contentChunks_no_meta]
    rfl

theorem send_success_stream_witness :
    contentData (generate_response (BackendOutcome.ok (some "Hi there friend"))
      (some "conv") (some "doc") "sid")
      = (pySplit "Hi there friend").map (· ++ " ") ∧
    pySplit (String.join (contentData
      (generate_response (BackendOutcome.ok (some "Hi there friend"))
        (some "conv") (some "doc") "sid")))
      = pySplit "Hi there friend" ∧
    (∃ pre, generate_response (BackendOutcome.ok (some "Hi there friend"))
        (some "conv") (some "doc") "sid"
        = pre ++ [⟨ChunkType.metadata,
            ChunkData.meta ⟨some "conv", some "doc", "sid"⟩, true⟩] ∧
      ∀ c ∈ pre, c.ctype = ChunkType.content) ∧
    (List.filter (fun c => c.ctype == ChunkType.metadata)
      (generate_response (BackendOutcome.ok (some "Hi there friend"))
        (some "conv") (some "doc") "sid")).length = 1 :=
  send_success_stream "Hi there friend" (some "conv") (some "doc") "sid"
    (by decide)

/-- C2 (counterexample): for the successful reply `"Hi there"` the emitted
sequence contains two chunks tagged `is_final: true` — the last content chunk
and the metadata chunk — so it does not contain exactly one. -/
theorem single_final_cex :
    countFinal (generate_response (BackendOutcome.ok (some "Hi there"))
      none none "sid") ≠ 1 := by
  decide

/-- C2 (amended): every emitted sequence is finite and non-empty and its last
chunk is tagged `is_final: true`; the number of `is_final` chunks is two for
a successful reply containing at least one word (the last content chunk is
also tagged final), and one in every other case. -/
theorem final_chunk_count (o : BackendOutcome) (conv doc : Option String)
    (sid : String) :
    generate_response o conv doc sid ≠ [] ∧
    (generate_response o conv doc sid).getLast?.map Chunk.is_final
      = some true ∧
    countFinal (generate_response o conv doc sid)
      = (match o with
        | BackendOutcome.ok (some r) => if pySplit r = [] then 1 else 2
        | _ => 1) := by
  match o with
  | BackendOutcome.exn e =>
    refine ⟨by simp [generate_response], by simp [generate_response], ?_⟩
    rfl
  | BackendOutcome.ok none =>
    refine ⟨by simp [generate_response], by simp [generate_response], ?_⟩
    rfl
  | BackendOutcome.ok (some r) =>
    by_cases hr : r = ""
    · subst hr
      have hsp : pySplit "" = [] := by decide
      refine ⟨by simp [generate_response], by simp [generate_response], ?_⟩
      simp [generate_response, countFinal, hsp]
    · have hgen : generate_response (BackendOutcome.ok (some r)) conv doc sid
          = contentChunks (pySplit r) ++
            [⟨ChunkType.metadata, ChunkData.meta ⟨conv, doc, sid⟩, true⟩] := by
        simp [generate_response, hr]
      refine ⟨?_, ?_, ?_⟩
      · rw [hgen]
        simp
      · rw [hgen]
        simp
      · rw [hgen, countFinal_append, countFinal_contentChunks]
        have hone : countFinal [(⟨ChunkType.metadata,
            ChunkData.meta ⟨conv, doc, sid⟩, true⟩ : Chunk)] = 1 := rfl
        rw [hone]
        by_cases hsp : pySplit r = [] <;> simp [hsp, hr]

/-- C6: when the backend call raises, or returns `None` or the empty string,
the emitted sequence is exactly one error chunk tagged final — no content
chunk precedes or follows it. -/
theorem error_stream_single (o : BackendOutcome) (conv doc : Option String)
    (sid : String)
    (h : o = BackendOutcome.ok none ∨ o = BackendOutcome.ok (some "") ∨
      ∃ e, o = BackendOutcome.exn e) :
    ∃ msg, generate_response o conv doc sid
      = [⟨ChunkType.error, ChunkData.str msg, true⟩] := by
  rcases h with h | h | ⟨e, h⟩ <;> subst h
  · exact ⟨_, rfl⟩
  · exact ⟨"Sorry, I couldn\x27t process your message. Please try again.",
      by simp [generate_response]⟩
  · exact ⟨_, rfl⟩

theorem error_stream_single_witness :
    ∃ msg, generate_response (BackendOutcome.ok none) none none "sid"
      = [⟨ChunkType.error, ChunkData.str msg, true⟩] :=
  error_stream_single (BackendOutcome.ok none) none none "sid" (Or.inl rfl)

/-- C10: a non-empty all-whitespace reply is treated as success, not as the
empty-reply error: the sequence is exactly the single terminal metadata
chunk, with zero content chunks. -/
theorem whitespace_reply_stream (r : String) (conv doc : Option String)
    (sid : String) (hr : r ≠ "") (hw : ∀ c ∈ r.data, isPySpace c = true) :
    generate_response (BackendOutcome.ok (some r)) conv doc sid
      = [⟨ChunkType.metadata, ChunkData.meta ⟨conv, doc, sid⟩, true⟩] := by
  have hsplit : pySplit r = [] := pySplit_all_space r hw
  simp [generate_response, hr, hsplit, contentChunks]

theorem whitespace_reply_stream_witness :
    generate_response (BackendOutcome.ok (some " ")) (some "conv")
      (some "doc") "sid"
      = [⟨ChunkType.metadata,
          ChunkData.meta ⟨some "conv", some "doc", "sid"⟩, true⟩] :=
  whitespace_reply_stream " " (some "conv") (some "doc") "sid"
    (by decide) (by decide)

/-! ## Upload-recovery lemmas and claim C3 -/

/-- `isPrefixOf` is reflexive. -/
theorem isPrefixOf_self (l : List Char) : l.isPrefixOf l = true := by
  induction l with
  | nil => rfl
  | cons c cs ih => simp [List.isPrefixOf, ih]

/-- A list is a prefix of itself followed by anything. -/
theorem isPrefixOf_append_self (l y : List Char) :
    l.isPrefixOf (l ++ y) = true := by
  induction l with
  | nil => cases y <;> rfl
  | cons c cs ih => simp [List.isPrefixOf, ih]

/-- A prefix occurrence is a substring occurrence. -/
theorem hasSubstr_of_pre (sub cs : List Char) (h : sub.isPrefixOf cs = true) :
    hasSubstr sub cs = true := by
  cases cs with
  | nil =>
    cases sub with
    | nil => rfl
    | cons a as => simp [List.isPrefixOf] at h
  | cons c cs' =>
    unfold hasSubstr
    rw [h]
    rfl

/-- Substring occurrences survive prepending a character. -/
theorem hasSubstr_cons (sub : List Char) (c : Char) (cs : List Char)
    (h : hasSubstr sub cs = true) : hasSubstr sub (c :: cs) = true := by
  unfold hasSubstr
  rw [h]
  simp

/-- Substring occurrences survive prepending any list. -/
theorem hasSubstr_append_right (sub pre cs : List Char)
    (h : hasSubstr sub cs = true) : hasSubstr sub (pre ++ cs) = true := by
  induction pre with
  | nil => simpa using h
  | cons p pre ih => exact hasSubstr_cons sub p _ ih

/-- Every list occurs in itself. -/
theorem hasSubstr_self (l : List Char) : hasSubstr l l = true :=
  hasSubstr_of_pre l l (isPrefixOf_self l)

/-- `takeWhile` stops exactly at the first failing character. -/
theorem takeWhile_append_all (p : Char → Bool) (l1 : List Char) (c : Char)
    (l2 : List Char) (h1 : ∀ x ∈ l1, p x = true) (hc : p c = false) :
    (l1 ++ c :: l2).takeWhile p = l1 := by
  induction l1 with
  | nil => simp [List.takeWhile_cons, hc]
  | cons a l ih =>
    have ha : p a = true := h1 a (by simp)
    simp [List.takeWhile_cons, ha, ih (fun x hx => h1 x (by simp [hx]))]

/-- The regex matcher anchored at the head succeeds on a well-formed
`Document <id> already exists` text when the id is a non-empty string of
`[a-f0-9-]` characters, and returns exactly the id. -/
theorem matchAt_exact (id : String) (hne : id.data ≠ [])
    (hid : ∀ c ∈ id.data, isHexOrDash c = true) :
    matchAt (docLit ++ (id.data ++ existsLit)) = some id := by
  have h1 : docLit.isPrefixOf (docLit ++ (id.data ++ existsLit)) = true :=
    isPrefixOf_append_self _ _
  have h2 : (docLit ++ (id.data ++ existsLit)).drop docLit.length
      = id.data ++ existsLit := List.drop_left _ _
  have h3 : (id.data ++ existsLit).takeWhile isHexOrDash = id.data := by
    have hex : existsLit = ' ' :: "already exists".data := rfl
    rw [hex]
    exact takeWhile_append_all isHexOrDash id.data ' ' _ hid (by decide)
  have h4 : id.data.isEmpty = false := by
    cases hd : id.data with
    | nil => exact absurd hd hne
    | cons a l => rfl
  have h5 : (id.data ++ existsLit).drop id.data.length = existsLit :=
    List.drop_left _ _
  have h6 : existsLit.isPrefixOf existsLit = true := isPrefixOf_self _
  simp only [matchAt, h1, h2, h3, h4, h5, h6, if_true, Bool.false_eq_true,
    if_false]

/-- The leftmost search succeeds immediately when the head matches. -/
theorem searchDoc_of_matchAt (cs : List Char) (g : String)
    (h : matchAt cs = some g) : searchDoc cs = some g := by
  cases cs with
  | nil =>
    have hnil : matchAt ([] : List Char) = none := by decide
    rw [hnil] at h
    exact absurd h (by simp)
  | cons c cs' =>
    unfold searchDoc
    rw [h]

/-- C3 (counterexample): the backend error `"Document doc-123 already
exists"` from the specification scenario is NOT recovered: the regex class
`[a-f0-9-]` rejects the letter `o` of `doc-123`, so the upload returns
failure (`none`), not `document_id = "doc-123"`. -/
theorem upload_recovery_cex :
    upload_document_to_r2r
      (UploadEnv.raised "Document doc-123 already exists") = none := by
  decide

/-- C3 (amended): for every upload where the backend raises `"Document <id>
already exists"` with `<id>` a non-empty string over the regex class
`[a-f0-9-]` (lower-case hex digits and hyphens, which covers the UUIDs the
backend actually issues), the facade recovers `<id>` from the error text and
returns it as a successful result. -/
theorem upload_recovery_class (id : String) (hne : id.data ≠ [])
    (hid : ∀ c ∈ id.data, isHexOrDash c = true) :
    upload_document_to_r2r
      (UploadEnv.raised ("Document " ++ id ++ " already exists"))
      = some id := by
  show upload_error_recovery ("Document " ++ id ++ " already exists")
      = some id
  have hdata : ("Document " ++ id ++ " already exists").data
      = docLit ++ (id.data ++ existsLit) := by
    simp [docLit, existsLit, String.data_append, List.append_assoc]
  have hae : hasSubstr "already exists".data
      ("Document " ++ id ++ " already exists").data = true := by
    rw [hdata]
    have hsplit2 : docLit ++ (id.data ++ existsLit)
        = (docLit ++ (id.data ++ [' '])) ++ "already exists".data := by
      have hex : existsLit = [' '] ++ "already exists".data := rfl
      rw [hex]
      simp [List.append_assoc]
    rw [hsplit2]
    exact hasSubstr_append_right _ _ _ (hasSubstr_self _)
  have hdoc : hasSubstr "Document".data
      ("Document " ++ id ++ " already exists").data = true := by
    rw [hdata]
    have hsplit3 : docLit ++ (id.data ++ existsLit)
        = "Document".data ++ ((' ' :: id.data) ++ existsLit) := by
      have hd9 : docLit = "Document".data ++ [' '] := by decide
      rw [hd9]
      simp [List.append_assoc]
    rw [hsplit3]
    exact hasSubstr_of_pre _ _ (isPrefixOf_append_self _ _)
  unfold upload_error_recovery
  rw [hae, hdoc]
  show searchDoc ("Document " ++ id ++ " already exists").data = some id
  rw [hdata]
  exact searchDoc_of_matchAt _ id (matchAt_exact id hne hid)

theorem upload_recovery_class_witness :
    upload_document_to_r2r
      (UploadEnv.raised ("Document " ++ "abc-123" ++ " already exists"))
      = some "abc-123" :=
  upload_recovery_class "abc-123" (by decide) (by decide)
